import Mathlib

/-!
Verification of the snake terminal client (src/game.rs, src/main.rs).

The Rust sources are embedded shallowly:
* pure data (points, directions, protocol messages, the field grid) become
  plain Lean structures and inductives;
* `init_field` is embedded in the `Option` monad, where `none` marks the
  panicking `usize` underflow of `width - 1` / `height - 1`;
* the terminal is modelled as a `Screen` (cell grid, cursor, pending-output
  flag) driven by a list of `Cmd`s; each renderer method is embedded as the
  list of commands it writes to stdout;
* the keyboard stream is modelled as the list of parse attempts the drain
  loop performs (`ParseResult`), since `termion::parse_event` is external;
* the lobby loop and one iteration of the play loop become functions that
  also return the trace of observable steps (network sends/receives, erases,
  draws), so ordering claims can be stated about the trace.
-/

namespace Snake

/-- Char representing a border (`BORDER_CHAR` in game.rs). -/
def BORDER_CHAR : Char := '#'

/-- Char representing the food items (`FOOD_CHAR` in game.rs). -/
def FOOD_CHAR : Char := 'Ծ'

/-- Char for snakes body (`SNAKE_CHAR` in game.rs). -/
def SNAKE_CHAR : Char := 'o'

/-- Directions (`Direction` in game.rs; the source spells the sentinel `Unkown`). -/
inductive Direction
  | Up
  | Down
  | Left
  | Right
  | Unkown
deriving DecidableEq

/-- One coordinate on the field (`Point` in game.rs, `x y : u16`). -/
structure Point where
  x : Nat
  y : Nat
deriving DecidableEq

/-- Game events (`GameEvent` in game.rs). -/
inductive GameEvent
  | WaitInLobby
  | Start
  | NewTurn
deriving DecidableEq

/-- Game states (`GameState` in game.rs). -/
inductive GameState
  | Ready
  | Playing
  | Lost
deriving DecidableEq

/-- Game configuration message (`GameConfig` in main.rs). -/
structure GameConfig where
  id : Nat
  width : Nat
  height : Nat
  snakes : List (List Point)
  food : Point
deriving DecidableEq

/-- Snake positions for next turn (`TurnMessage` in main.rs). -/
structure TurnMessage where
  id : Nat
  food : Point
  snakes : List (List Point)
deriving DecidableEq

/-- Checked natural subtraction: `none` marks the `usize` underflow panic of
Rust's `a - b` when `b > a`. -/
def sub? (a b : Nat) : Option Nat :=
  if b ≤ a then some (a - b) else none

/-- Init the game's field (`init_field` in game.rs).
Draw field's borders and put an empty char otherwise.  The ranges
`1..(width - 1)` and `1..(height - 1)` first evaluate the panicking
subtractions `width - 1` / `height - 1` (modelled by `sub?`) and then
iterate `max 0 (end - 1)` times (Lean's truncated `- 1`). -/
def init_field (width height : Nat) : Option (List (List Char)) := do
  let border_line : List Char := List.replicate width BORDER_CHAR
  let wEnd ← sub? width 1
  let inner_line : List Char := BORDER_CHAR :: (List.replicate (wEnd - 1) ' ' ++ [BORDER_CHAR])
  let hEnd ← sub? height 1
  some (border_line :: (List.replicate (hEnd - 1) inner_line ++ [border_line]))

lemma init_field_eq (a b : Nat) :
    init_field (a + 2) (b + 2) =
      some (List.replicate (a + 2) BORDER_CHAR ::
        (List.replicate b (BORDER_CHAR :: (List.replicate a ' ' ++ [BORDER_CHAR])) ++
          [List.replicate (a + 2) BORDER_CHAR])) := by
  simp [init_field, sub?]

lemma getD_replicate {α : Type} (x d : α) :
    ∀ (n j : Nat), j < n → (List.replicate n x).getD j d = x := by
  intro n
  induction n with
  | zero => intro j hj; omega
  | succ m ih =>
      intro j hj
      cases j with
      | zero => rfl
      | succ k => exact ih k (by omega)

lemma getD_replicate_append {α : Type} (x d : α) (l : List α) :
    ∀ (n j : Nat), j < n → (List.replicate n x ++ l).getD j d = x := by
  intro n
  induction n with
  | zero => intro j hj; omega
  | succ m ih =>
      intro j hj
      cases j with
      | zero => rfl
      | succ k => exact ih k (by omega)

lemma getD_replicate_append_at {α : Type} (x y d : α) :
    ∀ n : Nat, (List.replicate n x ++ [y]).getD n d = y := by
  intro n
  induction n with
  | zero => rfl
  | succ m ih => exact ih

/-- C2: for all width ≥ 2 and height ≥ 2, `init_field` builds (without any
underflow) a grid of exactly `height` rows of exactly `width` columns whose
border ring is `BORDER_CHAR` and whose interior is the blank glyph. -/
theorem C2_init_field (w h : Nat) (hw : 2 ≤ w) (hh : 2 ≤ h) :
    ∃ grid, init_field w h = some grid
      ∧ grid.length = h
      ∧ (∀ row ∈ grid, row.length = w)
      ∧ ∀ i j, i < h → j < w →
          (grid.getD i []).getD j ' ' =
            (if i = 0 ∨ i = h - 1 ∨ j = 0 ∨ j = w - 1 then BORDER_CHAR else ' ') := by
  obtain ⟨a, rfl⟩ : ∃ a, w = a + 2 := ⟨w - 2, by omega⟩
  obtain ⟨b, rfl⟩ : ∃ b, h = b + 2 := ⟨h - 2, by omega⟩
  refine ⟨_, init_field_eq a b, ?_, ?_, ?_⟩
  · simp
  · intro row hrow
    rcases List.mem_cons.1 hrow with hb | hrow
    · simp [hb]
    · rcases List.mem_append.1 hrow with hin | hb
      · have := List.eq_of_mem_replicate hin
        simp [this]
      · simp at hb
        simp [hb]
  · intro i j hi hj
    have hh1 : (b : Nat) + 2 - 1 = b + 1 := by omega
    have hw1 : (a : Nat) + 2 - 1 = a + 1 := by omega
    rw [hh1, hw1]
    rcases Nat.lt_or_ge i 1 with hi0 | hi1
    · have : i = 0 := by omega
      subst this
      simp only [List.getD_cons_zero]
      rw [getD_replicate BORDER_CHAR ' ' (a + 2) j hj]
      simp
    · obtain ⟨k, rfl⟩ : ∃ k, i = k + 1 := ⟨i - 1, by omega⟩
      simp only [List.getD_cons_succ]
      rcases Nat.lt_or_ge k b with hkb | hkb
      · rw [getD_replicate_append _ _ _ b k hkb]
        rcases Nat.lt_or_ge j 1 with hj0 | hj1
        · have : j = 0 := by omega
          subst this
          simp
        · obtain ⟨m, rfl⟩ : ∃ m, j = m + 1 := ⟨j - 1, by omega⟩
          simp only [List.getD_cons_succ]
          rcases Nat.lt_or_ge m a with hma | hma
          · rw [getD_replicate_append _ _ _ a m hma]
            have h1 : ¬ (k + 1 = 0) := by omega
            have h2 : ¬ (k + 1 = b + 1) := by omega
            have h3 : ¬ (m + 1 = 0) := by omega
            have h4 : ¬ (m + 1 = a + 1) := by omega
            simp [h1, h2, h3, h4]
          · have : m = a := by omega
            rw [this]
            rw [getD_replicate_append_at ' ' BORDER_CHAR ' ' a]
            simp
      · have : k = b := by omega
        rw [this]
        rw [getD_replicate_append_at _ _ _ b]
        rw [getD_replicate BORDER_CHAR ' ' (a + 2) j hj]
        simp

/-- Witness for C2 at width = height = 5. -/
theorem C2_witness :
    ∃ grid, init_field 5 5 = some grid
      ∧ grid.length = 5
      ∧ (∀ row ∈ grid, row.length = 5)
      ∧ ∀ i j, i < 5 → j < 5 →
          (grid.getD i []).getD j ' ' =
            (if i = 0 ∨ i = 5 - 1 ∨ j = 0 ∨ j = 5 - 1 then BORDER_CHAR else ' ') :=
  C2_init_field 5 5 (by decide) (by decide)

/-- C9: with width ≥ 2 and height ≥ 2 no subtraction in `init_field`
underflows (the construction succeeds), while at width = 0 the border-line
loop bound `width - 1` underflows and the construction panics (`none`). -/
theorem C9_underflow :
    (∀ w h, 2 ≤ w → 2 ≤ h → (init_field w h).isSome = true)
      ∧ init_field 0 5 = none := by
  constructor
  · intro w h hw hh
    obtain ⟨a, rfl⟩ : ∃ a, w = a + 2 := ⟨w - 2, by omega⟩
    obtain ⟨b, rfl⟩ : ∃ b, h = b + 2 := ⟨h - 2, by omega⟩
    rw [init_field_eq a b]
    rfl
  · rfl

/-- Witness for C9 at width = height = 2. -/
theorem C9_witness : (init_field 2 2).isSome = true :=
  C9_underflow.1 2 2 (by decide) (by decide)

/-- Keys relevant to the client (a fragment of `termion::event::Key`; every
other key collapses to `otherKey`, matching the catch-all match arms). -/
inductive Key
  | up
  | down
  | left
  | right
  | char (c : Char)
  | otherKey
deriving DecidableEq

/-- Input events (a fragment of `termion::event::Event`; mouse and
unsupported events collapse to `otherEvent`). -/
inductive Event
  | key (k : Key)
  | otherEvent
deriving DecidableEq

/-- One parse attempt of the drain loop: `parse_event` either yields an
event (`Ok(e)`) or fails on a malformed byte sequence (`failed`, matching
the silently-skipped `_ => ()` arm). -/
inductive ParseResult
  | ok (e : Event)
  | failed
deriving DecidableEq

/-- Game structure (`Game` in game.rs); the `stdout`/`stdin` handles are
replaced by the explicit command lists and input buffers passed to the
functions below. -/
structure Game where
  id : Nat
  snakes : List (List Point)
  direction : Direction
  food : Point
  field : List (List Char)
  killed : Bool
deriving DecidableEq

/-- Create an empty game (`Game::empty` in game.rs). -/
def Game.empty : Game :=
  { id := 0
    direction := Direction.Right
    field := []
    snakes := []
    food := { x := 0, y := 0 }
    killed := false }

/-- Initialize the game (`Game::set_config` in game.rs); `none` marks the
panic of `init_field` on degenerate dimensions. -/
def set_config (g : Game) (config : GameConfig) : Option Game := do
  let field ← init_field config.width config.height
  some { g with id := config.id, field := field, snakes := config.snakes, food := config.food }

/-- Update snakes positions (`Game::update` in game.rs; the source rebuilds
the vector element by element, which is the identity on the list). -/
def Game.update (g : Game) (snakes : List (List Point)) : Game :=
  { g with snakes := snakes }

/-- Get last keyboard entry if there is one (`Game::get_last_key_event` in
game.rs): fold the drain loop over the buffered parse attempts, keeping the
last successful parse in `prev`. -/
def get_last_key_event (buf : List ParseResult) : Option Event :=
  buf.foldl
    (fun prev r =>
      match r with
      | ParseResult.ok e => some e
      | ParseResult.failed => prev)
    none

/-- Projection of a parse attempt to its successfully parsed event. -/
def ParseResult.event? : ParseResult → Option Event
  | ParseResult.ok e => some e
  | ParseResult.failed => none

lemma getLast?_cons_eq {α : Type} (a : α) (l : List α) :
    (a :: l).getLast? = some (l.getLast?.getD a) := by
  induction l with
  | nil => rfl
  | cons b t ih =>
      rcases t with _ | ⟨c, t⟩
      · rfl
      · rw [List.getLast?_cons_cons]
        rw [List.getLast?_cons_cons] at ih
        simpa using ih

lemma get_last_key_event_foldl :
    ∀ (buf : List ParseResult) (acc : Option Event),
      buf.foldl
          (fun prev r =>
            match r with
            | ParseResult.ok e => some e
            | ParseResult.failed => prev)
          acc
        = (match (buf.filterMap ParseResult.event?).getLast? with
           | some e => some e
           | none => acc) := by
  intro buf
  induction buf with
  | nil => intro acc; rfl
  | cons r rest ih =>
      intro acc
      cases r with
      | ok e =>
          rw [List.foldl_cons, ih (some e)]
          have hfm : (ParseResult.ok e :: rest).filterMap ParseResult.event?
              = e :: rest.filterMap ParseResult.event? := by
            simp [ParseResult.event?]
          rw [hfm, getLast?_cons_eq]
          cases h : (rest.filterMap ParseResult.event?).getLast? with
          | none => simp [h]
          | some x => simp [h]
      | failed =>
          rw [List.foldl_cons, ih acc]
          have hfm : (ParseResult.failed :: rest).filterMap ParseResult.event?
              = rest.filterMap ParseResult.event? := by
            simp [ParseResult.event?]
          rw [hfm]

/-- C4: the input drain returns none on an empty buffer, returns only the
last parsed event of a buffer of events A, B, C, and in general returns the
last successfully parsed event of the buffer with failed parse attempts
silently skipped. -/
theorem C4_poll_latest :
    get_last_key_event [] = none
      ∧ (∀ a b c : Event,
          get_last_key_event [ParseResult.ok a, ParseResult.ok b, ParseResult.ok c] = some c)
      ∧ (∀ buf : List ParseResult,
          get_last_key_event buf = (buf.filterMap ParseResult.event?).getLast?) := by
  refine ⟨rfl, fun a b c => rfl, fun buf => ?_⟩
  rw [get_last_key_event, get_last_key_event_foldl buf none]
  cases h : (buf.filterMap ParseResult.event?).getLast? with
  | none => rfl
  | some x => rfl

/-- Handle user inputs during game (`Game::handle_input` in game.rs):
arrow keys overwrite the direction, the character q sets the kill flag,
everything else (including no input at all) leaves the game unchanged. -/
def handle_input (g : Game) (buf : List ParseResult) : Game :=
  match get_last_key_event buf with
  | some e =>
      match e with
      | Event.key k =>
          match k with
          | Key.up => { g with direction := Direction.Up }
          | Key.down => { g with direction := Direction.Down }
          | Key.left => { g with direction := Direction.Left }
          | Key.right => { g with direction := Direction.Right }
          | Key.char c => if c = 'q' then { g with killed := true } else g
          | Key.otherKey => g
      | Event.otherEvent => g
  | none => g

/-- Handle force start event (`Game::force_start` in game.rs): true exactly
when the last parsed event is the Enter key. -/
def force_start (buf : List ParseResult) : Bool :=
  match get_last_key_event buf with
  | some e =>
      match e with
      | Event.key k =>
          match k with
          | Key.char c => if c = '\n' then true else false
          | _ => false
      | _ => false
  | none => false

/-- Result of the lobby loop in main.rs. -/
inductive LobbyResult
  | playing
  | protocolError
  | starved
deriving DecidableEq

/-- The lobby loop of main.rs, driven by the list of received events and,
for each iteration that reaches the vote, the input buffer drained by
`force_start`.  Returns the list of transmitted `ForceStartMessage` booleans
and how the loop ended (`starved` marks running out of modelled input while
still blocked on the server). -/
def runLobby : List GameEvent → List (List ParseResult) → List Bool × LobbyResult
  | [], _ => ([], LobbyResult.starved)
  | GameEvent.Start :: _, _ => ([], LobbyResult.playing)
  | GameEvent.NewTurn :: _, _ => ([], LobbyResult.protocolError)
  | GameEvent.WaitInLobby :: rest, bufs =>
      let r := runLobby rest bufs.tail
      (force_start (bufs.headD []) :: r.1, r.2)

/-- C5: from the lobby, N Wait events followed by Start transmit exactly N
force-start votes and end in Playing; a NewTurn discriminant in the lobby
ends in a protocol error with zero transmissions. -/
theorem C5_lobby :
    (∀ (n : Nat) (rest : List GameEvent) (bufs : List (List ParseResult)),
        (runLobby (List.replicate n GameEvent.WaitInLobby ++ GameEvent.Start :: rest) bufs).1.length = n
          ∧ (runLobby (List.replicate n GameEvent.WaitInLobby ++ GameEvent.Start :: rest) bufs).2
              = LobbyResult.playing)
      ∧ (∀ (rest : List GameEvent) (bufs : List (List ParseResult)),
          runLobby (GameEvent.NewTurn :: rest) bufs = ([], LobbyResult.protocolError)) := by
  constructor
  · intro n
    induction n with
    | zero => intro rest bufs; exact ⟨rfl, rfl⟩
    | succ m ih =>
        intro rest bufs
        have h := ih rest bufs.tail
        constructor
        · simpa [List.replicate_succ, runLobby] using h.1
        · simpa [List.replicate_succ, runLobby] using h.2
  · intro rest bufs
    rfl

/-- Terminal foreground colors used by the renderer. -/
inductive Color
  | red
  | yellow
  | blue
  | reset
deriving DecidableEq

/-- One write to the raw terminal: cursor moves (`termion::cursor::Goto`),
printable characters, color escapes, `clear::All`, the line feed written in
raw mode (moves one row down, column unchanged), and a `flush()`. -/
inductive Cmd
  | goto (x y : Nat)
  | putChar (c : Char)
  | setFg (col : Color)
  | clearAll
  | newline
  | flushOut
deriving DecidableEq

/-- The terminal as seen through the writes: cell contents addressed by
(column, row), the cursor, the current foreground color and whether any
output is still buffered (unflushed). -/
structure Screen where
  cells : Nat × Nat → Char
  cursorX : Nat
  cursorY : Nat
  fg : Color
  pending : Bool

/-- Effect of a single write on the terminal. -/
def applyCmd (s : Screen) : Cmd → Screen
  | Cmd.goto x y => { s with cursorX := x, cursorY := y, pending := true }
  | Cmd.putChar c =>
      { s with
        cells := fun q => if q = (s.cursorX, s.cursorY) then c else s.cells q
        cursorX := s.cursorX + 1
        pending := true }
  | Cmd.setFg col => { s with fg := col, pending := true }
  | Cmd.clearAll => { s with cells := fun _ => ' ', pending := true }
  | Cmd.newline => { s with cursorY := s.cursorY + 1, pending := true }
  | Cmd.flushOut => { s with pending := false }

/-- Run a list of writes left to right. -/
def runCmds (cmds : List Cmd) (s : Screen) : Screen :=
  cmds.foldl applyCmd s

/-- A terminal whose surface is blank, with the cursor at the origin. -/
def initScreen : Screen :=
  { cells := fun _ => ' ', cursorX := 1, cursorY := 1, fg := Color.reset, pending := false }

/-- Draw the food (`Game::draw_food` in game.rs): position the cursor at the
food, write the food glyph in red, reset the color, flush.  No cursor
parking happens here. -/
def draw_food (food : Point) : List Cmd :=
  [Cmd.goto food.x food.y, Cmd.setFg Color.red, Cmd.putChar FOOD_CHAR,
   Cmd.setFg Color.reset, Cmd.flushOut]

/-- The per-segment writes of `draw_snake_with_char`: go to the segment and
write the glyph. -/
def snakeWrites (c : Char) : List Point → List Cmd
  | [] => []
  | p :: rest => Cmd.goto p.x p.y :: Cmd.putChar c :: snakeWrites c rest

/-- Draw snake using char c (`Game::draw_snake_with_char` in game.rs):
select the ownership color and flush, write the glyph at every segment,
then park the cursor at `Goto(0, field.len() + 1)`, reset the color and
flush. -/
def draw_snake_with_char (c : Char) (snake : List Point) (own : Bool) (fieldLen : Nat) :
    List Cmd :=
  [Cmd.setFg (if own then Color.red else Color.yellow), Cmd.flushOut]
    ++ snakeWrites c snake
    ++ [Cmd.goto 0 (fieldLen + 1), Cmd.setFg Color.reset, Cmd.flushOut]

/-- The indexed iteration of `Game::draw_snakes`: snake `idx` is drawn with
`SNAKE_CHAR` and owned iff `selfId = idx`. -/
def draw_snakes_from (selfId fieldLen : Nat) : Nat → List (List Point) → List Cmd
  | _, [] => []
  | idx, sn :: rest =>
      draw_snake_with_char SNAKE_CHAR sn (selfId == idx) fieldLen
        ++ draw_snakes_from selfId fieldLen (idx + 1) rest

/-- Draw snakes using SNAKE_CHAR (`Game::draw_snakes` in game.rs). -/
def draw_snakes (selfId fieldLen : Nat) (snakes : List (List Point)) : List Cmd :=
  draw_snakes_from selfId fieldLen 0 snakes

/-- Clear snakes (`Game::clear_snakes` in game.rs): redraw every snake with
the blank glyph, ownership always false. -/
def clear_snakes (fieldLen : Nat) : List (List Point) → List Cmd
  | [] => []
  | sn :: rest => draw_snake_with_char ' ' sn false fieldLen ++ clear_snakes fieldLen rest

/-- The row-by-row writes of `Game::draw_field`: each row's characters, then
an explicit `Goto(1, i + 1)` to the start of the current row followed by the
raw-mode line feed. -/
def fieldRowsCmds : Nat → List (List Char) → List Cmd
  | _, [] => []
  | i, row :: rest =>
      (row.map Cmd.putChar ++ [Cmd.goto 1 (i + 1), Cmd.newline]) ++ fieldRowsCmds (i + 1) rest

/-- Draw the game's borders (`Game::draw_field` in game.rs): clear the whole
surface, go to the origin, select blue, flush, write every row, reset the
color, flush. -/
def draw_field (field : List (List Char)) : List Cmd :=
  [Cmd.clearAll, Cmd.goto 1 1, Cmd.setFg Color.blue, Cmd.flushOut]
    ++ fieldRowsCmds 0 field
    ++ [Cmd.setFg Color.reset, Cmd.flushOut]

lemma runCmds_append (a b : List Cmd) (s : Screen) :
    runCmds (a ++ b) s = runCmds b (runCmds a s) := by
  simp [runCmds, List.foldl_append]

lemma fieldRows_cursor :
    ∀ (rows : List (List Char)) (i : Nat) (s : Screen), rows ≠ [] →
      (runCmds (fieldRowsCmds i rows) s).cursorX = 1
        ∧ (runCmds (fieldRowsCmds i rows) s).cursorY = i + rows.length + 1 := by
  intro rows
  induction rows with
  | nil => intro i s h; exact absurd rfl h
  | cons r rest ih =>
      intro i s _
      rcases rest with _ | ⟨r2, rest2⟩
      · rw [fieldRowsCmds, fieldRowsCmds, List.append_nil, runCmds_append]
        exact ⟨rfl, rfl⟩
      · rw [fieldRowsCmds, runCmds_append]
        have h := ih (i + 1) (runCmds (r.map Cmd.putChar ++ [Cmd.goto 1 (i + 1), Cmd.newline]) s)
          (by simp)
        refine ⟨h.1, ?_⟩
        rw [h.2]
        simp
        omega

/-- C6 counterexample: `draw_food` leaves the cursor immediately to the
right of the food cell (here (4, 3)), not at column 0 in the parked
position, refuting the claim that every draw operation parks the cursor. -/
theorem C6_counterexample :
    (runCmds (draw_food { x := 3, y := 3 }) initScreen).cursorX = 4
      ∧ (runCmds (draw_food { x := 3, y := 3 }) initScreen).cursorY = 3
      ∧ ¬ (runCmds (draw_food { x := 3, y := 3 }) initScreen).cursorX = 0 :=
  ⟨rfl, rfl, by decide⟩

/-- C6 amended: every draw operation flushes before returning, but only
`draw_snake_with_char` (hence `draw_snakes`/`clear_snakes`) parks the cursor
at (0, field length + 1); `draw_field` leaves the cursor at column 1 one row
below the field, and `draw_food` leaves it just right of the food cell. -/
theorem C6_flush_and_cursor :
    (∀ (s : Screen) (food : Point),
        (runCmds (draw_food food) s).pending = false
          ∧ (runCmds (draw_food food) s).cursorX = food.x + 1
          ∧ (runCmds (draw_food food) s).cursorY = food.y)
      ∧ (∀ (s : Screen) (c : Char) (snake : List Point) (own : Bool) (fieldLen : Nat),
          (runCmds (draw_snake_with_char c snake own fieldLen) s).pending = false
            ∧ (runCmds (draw_snake_with_char c snake own fieldLen) s).cursorX = 0
            ∧ (runCmds (draw_snake_with_char c snake own fieldLen) s).cursorY = fieldLen + 1)
      ∧ (∀ (s : Screen) (field : List (List Char)),
          (runCmds (draw_field field) s).pending = false
            ∧ (runCmds (draw_field field) s).cursorX = 1
            ∧ (runCmds (draw_field field) s).cursorY = field.length + 1) := by
  refine ⟨fun s food => ⟨rfl, rfl, rfl⟩, fun s c snake own fieldLen => ?_, fun s field => ?_⟩
  · rw [draw_snake_with_char, runCmds_append]
    exact ⟨rfl, rfl, rfl⟩
  · rw [draw_field, List.append_assoc, runCmds_append, runCmds_append]
    rcases field with _ | ⟨r, rest⟩
    · exact ⟨rfl, rfl, rfl⟩
    · have h := fieldRows_cursor (r :: rest) 0
        (runCmds [Cmd.clearAll, Cmd.goto 1 1, Cmd.setFg Color.blue, Cmd.flushOut] s)
        (by simp)
      refine ⟨rfl, ?_, ?_⟩
      · simpa [runCmds, applyCmd] using h.1
      · have h2 := h.2
        simp at h2
        simpa [runCmds, applyCmd] using h2

/-- The display cells a snake body occupies. -/
def snakeCells (snake : List Point) : List (Nat × Nat) :=
  snake.map fun p => (p.x, p.y)

/-- The display cells a snake set occupies. -/
def snakesCells (snakes : List (List Point)) : List (Nat × Nat) :=
  (snakes.map snakeCells).flatten

lemma cells_snakeWrites (c : Char) :
    ∀ (snake : List Point) (s : Screen) (q : Nat × Nat),
      (runCmds (snakeWrites c snake) s).cells q
        = if q ∈ snakeCells snake then c else s.cells q := by
  intro snake
  induction snake with
  | nil => intro s q; simp [snakeWrites, runCmds, snakeCells]
  | cons p rest ih =>
      intro s q
      rw [snakeWrites]
      have hstep : runCmds (Cmd.goto p.x p.y :: Cmd.putChar c :: snakeWrites c rest) s
          = runCmds (snakeWrites c rest)
              (applyCmd (applyCmd s (Cmd.goto p.x p.y)) (Cmd.putChar c)) := rfl
      rw [hstep, ih]
      have hcons : snakeCells (p :: rest) = (p.x, p.y) :: snakeCells rest := rfl
      rw [hcons]
      by_cases h1 : q ∈ snakeCells rest
      · simp [List.mem_cons, h1]
      · by_cases h2 : q = (p.x, p.y)
        · simp [applyCmd, List.mem_cons, h1, h2]
        · simp [applyCmd, List.mem_cons, h1, h2]

lemma cells_draw_snake_with_char (c : Char) (snake : List Point) (own : Bool)
    (fieldLen : Nat) (s : Screen) (q : Nat × Nat) :
    (runCmds (draw_snake_with_char c snake own fieldLen) s).cells q
      = if q ∈ snakeCells snake then c else s.cells q := by
  rw [draw_snake_with_char, runCmds_append, runCmds_append]
  have hB : ∀ t : Screen,
      (runCmds [Cmd.goto 0 (fieldLen + 1), Cmd.setFg Color.reset, Cmd.flushOut] t).cells
        = t.cells := fun t => rfl
  have hA :
      (runCmds [Cmd.setFg (if own then Color.red else Color.yellow), Cmd.flushOut] s).cells
        = s.cells := by
    cases own <;> rfl
  rw [hB, cells_snakeWrites, hA]

lemma cells_clear_snakes (fieldLen : Nat) :
    ∀ (snakes : List (List Point)) (s : Screen) (q : Nat × Nat),
      (runCmds (clear_snakes fieldLen snakes) s).cells q
        = if q ∈ snakesCells snakes then ' ' else s.cells q := by
  intro snakes
  induction snakes with
  | nil => intro s q; simp [clear_snakes, runCmds, snakesCells]
  | cons sn rest ih =>
      intro s q
      rw [clear_snakes, runCmds_append, ih, cells_draw_snake_with_char]
      have hcons : snakesCells (sn :: rest) = snakeCells sn ++ snakesCells rest := rfl
      rw [hcons]
      by_cases h1 : q ∈ snakesCells rest
      · simp [List.mem_append, h1]
      · by_cases h2 : q ∈ snakeCells sn
        · simp [List.mem_append, h1, h2]
        · simp [List.mem_append, h1, h2]

lemma cells_draw_snakes_from (selfId fieldLen : Nat) :
    ∀ (snakes : List (List Point)) (idx : Nat) (s : Screen) (q : Nat × Nat),
      (runCmds (draw_snakes_from selfId fieldLen idx snakes) s).cells q
        = if q ∈ snakesCells snakes then SNAKE_CHAR else s.cells q := by
  intro snakes
  induction snakes with
  | nil => intro idx s q; simp [draw_snakes_from, runCmds, snakesCells]
  | cons sn rest ih =>
      intro idx s q
      rw [draw_snakes_from, runCmds_append, ih, cells_draw_snake_with_char]
      have hcons : snakesCells (sn :: rest) = snakeCells sn ++ snakesCells rest := rfl
      rw [hcons]
      by_cases h1 : q ∈ snakesCells rest
      · simp [List.mem_append, h1]
      · by_cases h2 : q ∈ snakeCells sn
        · simp [List.mem_append, h1, h2]
        · simp [List.mem_append, h1, h2]

/-- C3: after erasing snake set sOld with the blank glyph and then drawing
snake set sNew, every cell of sNew (the overlap with sOld included) shows
the snake glyph and every cell occupied only by sOld is blank. -/
theorem C3_erase_then_draw (sOld sNew : List (List Point)) (selfId fieldLen : Nat)
    (s : Screen) (q : Nat × Nat) :
    (q ∈ snakesCells sNew →
        (runCmds (clear_snakes fieldLen sOld ++ draw_snakes selfId fieldLen sNew) s).cells q
          = SNAKE_CHAR)
      ∧ (q ∈ snakesCells sOld → q ∉ snakesCells sNew →
          (runCmds (clear_snakes fieldLen sOld ++ draw_snakes selfId fieldLen sNew) s).cells q
            = ' ')
      ∧ (q ∈ snakesCells sOld → q ∈ snakesCells sNew →
          (runCmds (clear_snakes fieldLen sOld ++ draw_snakes selfId fieldLen sNew) s).cells q
            = SNAKE_CHAR) := by
  rw [runCmds_append, draw_snakes, cells_draw_snakes_from, cells_clear_snakes]
  refine ⟨fun hn => ?_, fun ho hn => ?_, fun ho hn => ?_⟩
  · simp [hn]
  · simp [ho, hn]
  · simp [hn]

/-- Witness for C3: the cell occupied only by the old snake is blank after
the erase-then-draw pair. -/
theorem C3_witness :
    (runCmds
        (clear_snakes 5 [[{ x := 2, y := 2 }]] ++ draw_snakes 0 5 [[{ x := 2, y := 3 }]])
        initScreen).cells (2, 2) = ' ' :=
  (C3_erase_then_draw [[{ x := 2, y := 2 }]] [[{ x := 2, y := 3 }]] 0 5 initScreen (2, 2)).2.1
    (by decide) (by decide)

/-- The observable steps of one iteration of the play loop in main.rs, in
program order: network receives and sends, session mutations and renderer
calls.  `eraseSnakes` records the snake set the erase redraws blank. -/
inductive TurnStep
  | recvEvent
  | pollInput
  | sendDirection (d : Direction)
  | recvTurn
  | applyId
  | applyFood
  | eraseSnakes (old : List (List Point))
  | renderFood
  | applySnakes
  | renderSnakes
  | recvState
deriving DecidableEq

/-- True on the transmit step of a direction report. -/
def TurnStep.isSendDir : TurnStep → Bool
  | TurnStep.sendDirection _ => true
  | _ => false

/-- True on the erase step. -/
def TurnStep.isErase : TurnStep → Bool
  | TurnStep.eraseSnakes _ => true
  | _ => false

/-- True on the step that stores the new id in the session. -/
def TurnStep.isApplyId : TurnStep → Bool
  | TurnStep.applyId => true
  | _ => false

/-- True on the step that stores the new food in the session. -/
def TurnStep.isApplyFood : TurnStep → Bool
  | TurnStep.applyFood => true
  | _ => false

/-- True on the step that stores the new snake set in the session. -/
def TurnStep.isApplySnakes : TurnStep → Bool
  | TurnStep.applySnakes => true
  | _ => false

/-- How one iteration of the play loop ends. -/
inductive Outcome
  | nextTurn
  | quit
  | lost
  | protocolError
deriving DecidableEq

/-- One iteration of the play loop in main.rs, from the blocking receive of
the turn event to the game-state check: the resulting session, the trace of
observable steps in program order, and how the iteration ended.  The source
order is: receive event (break on anything but NewTurn), handle input,
break if killed, send the direction, receive the turn data, assign id, then
food, clear the old snakes, draw the food, store the new snakes, draw them,
then receive the state report and break on Lost. -/
def playTurn (g : Game) (eventMsg : GameEvent) (buf : List ParseResult)
    (turn : TurnMessage) (st : GameState) : Game × List TurnStep × Outcome :=
  match eventMsg with
  | GameEvent.NewTurn =>
      let g1 := handle_input g buf
      if g1.killed then
        (g1, [TurnStep.recvEvent, TurnStep.pollInput], Outcome.quit)
      else
        let g2 := { g1 with id := turn.id }
        let g3 := { g2 with food := turn.food }
        let g4 := g3.update turn.snakes
        let trace :=
          [TurnStep.recvEvent, TurnStep.pollInput, TurnStep.sendDirection g1.direction,
           TurnStep.recvTurn, TurnStep.applyId, TurnStep.applyFood,
           TurnStep.eraseSnakes g3.snakes, TurnStep.renderFood, TurnStep.applySnakes,
           TurnStep.renderSnakes, TurnStep.recvState]
        if st = GameState.Lost then (g4, trace, Outcome.lost)
        else (g4, trace, Outcome.nextTurn)
  | _ => (g, [TurnStep.recvEvent], Outcome.protocolError)

lemma handle_input_snakes (g : Game) (buf : List ParseResult) :
    (handle_input g buf).snakes = g.snakes := by
  rw [handle_input]
  rcases get_last_key_event buf with _ | e
  · rfl
  · rcases e with k | _
    · rcases k with _ | _ | _ | _ | c | _ <;> try rfl
      by_cases hc : c = 'q' <;> simp [hc]
    · rfl

lemma handle_input_direction (g : Game) (buf : List ParseResult) :
    (handle_input g buf).direction = g.direction
      ∨ (handle_input g buf).direction ≠ Direction.Unkown := by
  rw [handle_input]
  rcases get_last_key_event buf with _ | e
  · exact Or.inl rfl
  · rcases e with k | _
    · rcases k with _ | _ | _ | _ | c | _
      · exact Or.inr (by simp)
      · exact Or.inr (by simp)
      · exact Or.inr (by simp)
      · exact Or.inr (by simp)
      · by_cases hc : c = 'q' <;> simp [hc]
      · exact Or.inl rfl
    · exact Or.inl rfl

/-- True on the events the play-mode input interpretation reacts to:
arrow keys and the quit key. -/
def dirOrQuitKey : Event → Bool
  | Event.key Key.up => true
  | Event.key Key.down => true
  | Event.key Key.left => true
  | Event.key Key.right => true
  | Event.key (Key.char c) => c = 'q'
  | _ => false

lemma handle_input_of_not_dir (g : Game) (buf : List ParseResult)
    (hq : ∀ e, get_last_key_event buf = some e → dirOrQuitKey e = false) :
    handle_input g buf = g := by
  rw [handle_input]
  cases hl : get_last_key_event buf with
  | none => rfl
  | some e =>
      have he := hq e hl
      rcases e with k | _
      · rcases k with _ | _ | _ | _ | c | _
        · exact absurd he (by simp [dirOrQuitKey])
        · exact absurd he (by simp [dirOrQuitKey])
        · exact absurd he (by simp [dirOrQuitKey])
        · exact absurd he (by simp [dirOrQuitKey])
        · have hc : ¬ (c = 'q') := by simpa [dirOrQuitKey] using he
          simp [hc]
        · rfl
      · rfl

lemma playTurn_trace (g : Game) (buf : List ParseResult) (turn : TurnMessage)
    (st : GameState) (h : (handle_input g buf).killed = false) :
    (playTurn g GameEvent.NewTurn buf turn st).2.1
      = [TurnStep.recvEvent, TurnStep.pollInput,
         TurnStep.sendDirection (handle_input g buf).direction, TurnStep.recvTurn,
         TurnStep.applyId, TurnStep.applyFood, TurnStep.eraseSnakes g.snakes,
         TurnStep.renderFood, TurnStep.applySnakes, TurnStep.renderSnakes,
         TurnStep.recvState] := by
  rw [playTurn]
  simp only [h, Bool.false_eq_true, if_false]
  rw [handle_input_snakes]
  split_ifs <;> rfl

lemma playTurn_filter_sendDir (g : Game) (buf : List ParseResult) (turn : TurnMessage)
    (st : GameState) (h : (handle_input g buf).killed = false) :
    (playTurn g GameEvent.NewTurn buf turn st).2.1.filter TurnStep.isSendDir
      = [TurnStep.sendDirection (handle_input g buf).direction] := by
  rw [playTurn_trace g buf turn st h]
  simp [List.filter, TurnStep.isSendDir]

/-- C1 counterexample: in a concrete completed turn cycle the session's id
is updated (step index 4) before the erase of the old snakes (step index
6), refuting the claim that the erase strictly precedes the application of
any of the new id/food/snake data. -/
theorem C1_counterexample :
    ((playTurn Game.empty GameEvent.NewTurn []
          { id := 1, food := { x := 2, y := 2 }, snakes := [[{ x := 3, y := 3 }]] }
          GameState.Playing).2.1.findIdx TurnStep.isApplyId = 4)
      ∧ ((playTurn Game.empty GameEvent.NewTurn []
            { id := 1, food := { x := 2, y := 2 }, snakes := [[{ x := 3, y := 3 }]] }
            GameState.Playing).2.1.findIdx TurnStep.isErase = 6)
      ∧ ((playTurn Game.empty GameEvent.NewTurn []
            { id := 1, food := { x := 2, y := 2 }, snakes := [[{ x := 3, y := 3 }]] }
            GameState.Playing).2.1.any TurnStep.isApplyId = true)
      ∧ ¬ ((playTurn Game.empty GameEvent.NewTurn []
            { id := 1, food := { x := 2, y := 2 }, snakes := [[{ x := 3, y := 3 }]] }
            GameState.Playing).2.1.findIdx TurnStep.isErase
          < (playTurn Game.empty GameEvent.NewTurn []
              { id := 1, food := { x := 2, y := 2 }, snakes := [[{ x := 3, y := 3 }]] }
              GameState.Playing).2.1.findIdx TurnStep.isApplyId) := by
  decide

/-- C1 amended: in every completed turn cycle the erase uses the pre-update
snake set and strictly precedes the application of the new snake set, but
the new id and food are stored in the session before the erase. -/
theorem C1_turn_order (g : Game) (buf : List ParseResult) (turn : TurnMessage)
    (st : GameState) (h : (handle_input g buf).killed = false) :
    (playTurn g GameEvent.NewTurn buf turn st).2.1
        = [TurnStep.recvEvent, TurnStep.pollInput,
           TurnStep.sendDirection (handle_input g buf).direction, TurnStep.recvTurn,
           TurnStep.applyId, TurnStep.applyFood, TurnStep.eraseSnakes g.snakes,
           TurnStep.renderFood, TurnStep.applySnakes, TurnStep.renderSnakes,
           TurnStep.recvState]
      ∧ (playTurn g GameEvent.NewTurn buf turn st).2.1.findIdx TurnStep.isErase
          < (playTurn g GameEvent.NewTurn buf turn st).2.1.findIdx TurnStep.isApplySnakes
      ∧ (playTurn g GameEvent.NewTurn buf turn st).2.1.findIdx TurnStep.isApplyId
          < (playTurn g GameEvent.NewTurn buf turn st).2.1.findIdx TurnStep.isErase
      ∧ (playTurn g GameEvent.NewTurn buf turn st).2.1.findIdx TurnStep.isApplyFood
          < (playTurn g GameEvent.NewTurn buf turn st).2.1.findIdx TurnStep.isErase := by
  have ht := playTurn_trace g buf turn st h
  refine ⟨ht, ?_, ?_, ?_⟩ <;>
    · rw [ht]
      simp [List.findIdx_cons, TurnStep.isErase, TurnStep.isApplySnakes, TurnStep.isApplyId,
        TurnStep.isApplyFood]

/-- Witness for the amended C1 on a concrete turn. -/
theorem C1_witness :
    ((playTurn Game.empty GameEvent.NewTurn []
          { id := 1, food := { x := 2, y := 2 }, snakes := [[{ x := 3, y := 3 }]] }
          GameState.Playing).2.1
        = [TurnStep.recvEvent, TurnStep.pollInput, TurnStep.sendDirection Direction.Right,
           TurnStep.recvTurn, TurnStep.applyId, TurnStep.applyFood, TurnStep.eraseSnakes [],
           TurnStep.renderFood, TurnStep.applySnakes, TurnStep.renderSnakes,
           TurnStep.recvState])
      ∧ (playTurn Game.empty GameEvent.NewTurn []
            { id := 1, food := { x := 2, y := 2 }, snakes := [[{ x := 3, y := 3 }]] }
            GameState.Playing).2.1.findIdx TurnStep.isErase
          < (playTurn Game.empty GameEvent.NewTurn []
              { id := 1, food := { x := 2, y := 2 }, snakes := [[{ x := 3, y := 3 }]] }
              GameState.Playing).2.1.findIdx TurnStep.isApplySnakes
      ∧ (playTurn Game.empty GameEvent.NewTurn []
            { id := 1, food := { x := 2, y := 2 }, snakes := [[{ x := 3, y := 3 }]] }
            GameState.Playing).2.1.findIdx TurnStep.isApplyId
          < (playTurn Game.empty GameEvent.NewTurn []
              { id := 1, food := { x := 2, y := 2 }, snakes := [[{ x := 3, y := 3 }]] }
              GameState.Playing).2.1.findIdx TurnStep.isErase
      ∧ (playTurn Game.empty GameEvent.NewTurn []
            { id := 1, food := { x := 2, y := 2 }, snakes := [[{ x := 3, y := 3 }]] }
            GameState.Playing).2.1.findIdx TurnStep.isApplyFood
          < (playTurn Game.empty GameEvent.NewTurn []
              { id := 1, food := { x := 2, y := 2 }, snakes := [[{ x := 3, y := 3 }]] }
              GameState.Playing).2.1.findIdx TurnStep.isErase :=
  C1_turn_order Game.empty []
    { id := 1, food := { x := 2, y := 2 }, snakes := [[{ x := 3, y := 3 }]] }
    GameState.Playing (by decide)

/-- C7 counterexample: the quit key is among the polled input, but because
a later arrow key is the last parsed event the kill flag is not set and the
turn still transmits one direction report instead of terminating with Quit. -/
theorem C7_counterexample :
    (Event.key (Key.char 'q')
        ∈ [ParseResult.ok (Event.key (Key.char 'q')),
           ParseResult.ok (Event.key Key.up)].filterMap ParseResult.event?)
      ∧ (playTurn Game.empty GameEvent.NewTurn
            [ParseResult.ok (Event.key (Key.char 'q')), ParseResult.ok (Event.key Key.up)]
            { id := 0, food := { x := 2, y := 2 }, snakes := [[{ x := 3, y := 3 }]] }
            GameState.Playing).2.2 ≠ Outcome.quit
      ∧ (playTurn Game.empty GameEvent.NewTurn
            [ParseResult.ok (Event.key (Key.char 'q')), ParseResult.ok (Event.key Key.up)]
            { id := 0, food := { x := 2, y := 2 }, snakes := [[{ x := 3, y := 3 }]] }
            GameState.Playing).2.1.countP TurnStep.isSendDir = 1 := by
  decide

/-- C7 amended: in a turn cycle whose last fully-parsed polled event is the
quit key (so the kill flag is set at the input step), the iteration ends in
Quit right after polling: the trace stops at the poll, so no direction
report is transmitted and no further network or rendering step occurs. -/
theorem C7_quit_before_transmit (g : Game) (buf : List ParseResult) (turn : TurnMessage)
    (st : GameState)
    (h : get_last_key_event buf = some (Event.key (Key.char 'q'))) :
    playTurn g GameEvent.NewTurn buf turn st
        = (handle_input g buf, [TurnStep.recvEvent, TurnStep.pollInput], Outcome.quit)
      ∧ (handle_input g buf).killed = true
      ∧ (playTurn g GameEvent.NewTurn buf turn st).2.1.countP TurnStep.isSendDir = 0 := by
  have hk : (handle_input g buf).killed = true := by
    rw [handle_input, h]
    rfl
  have hp : playTurn g GameEvent.NewTurn buf turn st
      = (handle_input g buf, [TurnStep.recvEvent, TurnStep.pollInput], Outcome.quit) := by
    rw [playTurn]
    simp only [hk, if_true]
  exact ⟨hp, hk, by rw [hp]; rfl⟩

/-- Witness for the amended C7: a lone quit keypress ends the turn in Quit
with zero direction reports. -/
theorem C7_witness :
    playTurn Game.empty GameEvent.NewTurn [ParseResult.ok (Event.key (Key.char 'q'))]
          { id := 0, food := { x := 2, y := 2 }, snakes := [[{ x := 3, y := 3 }]] }
          GameState.Playing
        = ({ id := 0, snakes := [], direction := Direction.Right,
             food := { x := 0, y := 0 }, field := [], killed := true },
           [TurnStep.recvEvent, TurnStep.pollInput], Outcome.quit)
      ∧ ({ id := 0, snakes := [], direction := Direction.Right,
           food := { x := 0, y := 0 }, field := [], killed := true } : Game).killed = true
      ∧ (playTurn Game.empty GameEvent.NewTurn [ParseResult.ok (Event.key (Key.char 'q'))]
            { id := 0, food := { x := 2, y := 2 }, snakes := [[{ x := 3, y := 3 }]] }
            GameState.Playing).2.1.countP TurnStep.isSendDir = 0 :=
  C7_quit_before_transmit Game.empty [ParseResult.ok (Event.key (Key.char 'q'))]
    { id := 0, food := { x := 2, y := 2 }, snakes := [[{ x := 3, y := 3 }]] }
    GameState.Playing (by decide)

/-- C8: every turn cycle that reaches the transmit step (a NewTurn event
and no kill flag after polling) sends exactly one direction report, and it
carries the session's current direction, even when unchanged. -/
theorem C8_one_direction_report (g : Game) (buf : List ParseResult) (turn : TurnMessage)
    (st : GameState) (h : (handle_input g buf).killed = false) :
    (playTurn g GameEvent.NewTurn buf turn st).2.1.filter TurnStep.isSendDir
      = [TurnStep.sendDirection (handle_input g buf).direction] :=
  playTurn_filter_sendDir g buf turn st h

/-- Witness for C8 on a concrete turn with no input. -/
theorem C8_witness :
    (playTurn Game.empty GameEvent.NewTurn []
        { id := 0, food := { x := 2, y := 2 }, snakes := [[{ x := 3, y := 3 }]] }
        GameState.Playing).2.1.filter TurnStep.isSendDir
      = [TurnStep.sendDirection Direction.Right] :=
  C8_one_direction_report Game.empty []
    { id := 0, food := { x := 2, y := 2 }, snakes := [[{ x := 3, y := 3 }]] }
    GameState.Playing (by decide)

/-- C10: a fresh session starts with direction Right, no reachable
operation ever makes the direction Unkown (input handling, configuration
and a play-loop iteration all preserve being distinct from the sentinel),
and a client that polls no direction key before its first turn transmits
Right in its first direction report. -/
theorem C10_direction_default :
    Game.empty.direction = Direction.Right
      ∧ (∀ (g : Game) (buf : List ParseResult),
          g.direction ≠ Direction.Unkown →
            (handle_input g buf).direction ≠ Direction.Unkown)
      ∧ (∀ (g g' : Game) (cfg : GameConfig),
          set_config g cfg = some g' → g'.direction = g.direction)
      ∧ (∀ (g : Game) (e : GameEvent) (buf : List ParseResult) (turn : TurnMessage)
            (st : GameState),
          g.direction ≠ Direction.Unkown →
            (playTurn g e buf turn st).1.direction ≠ Direction.Unkown)
      ∧ (∀ (g' : Game) (cfg : GameConfig) (buf : List ParseResult) (turn : TurnMessage)
            (st : GameState),
          set_config Game.empty cfg = some g' →
            (∀ e, get_last_key_event buf = some e → dirOrQuitKey e = false) →
            (playTurn g' GameEvent.NewTurn buf turn st).2.1.filter TurnStep.isSendDir
              = [TurnStep.sendDirection Direction.Right]) := by
  have hhi : ∀ (g : Game) (buf : List ParseResult),
      g.direction ≠ Direction.Unkown →
        (handle_input g buf).direction ≠ Direction.Unkown := by
    intro g buf hg
    rcases handle_input_direction g buf with he | hne
    · rw [he]; exact hg
    · exact hne
  have hsc : ∀ (g g' : Game) (cfg : GameConfig),
      set_config g cfg = some g' → g'.direction = g.direction := by
    intro g g' cfg h
    rw [set_config] at h
    cases hf : init_field cfg.width cfg.height with
    | none => rw [hf] at h; exact absurd h (by simp)
    | some field =>
        rw [hf] at h
        simp only [Option.bind_eq_bind, Option.some_bind, Option.some.injEq] at h
        rw [← h]
  have hsck : ∀ (g g' : Game) (cfg : GameConfig),
      set_config g cfg = some g' → g'.killed = g.killed := by
    intro g g' cfg h
    rw [set_config] at h
    cases hf : init_field cfg.width cfg.height with
    | none => rw [hf] at h; exact absurd h (by simp)
    | some field =>
        rw [hf] at h
        simp only [Option.bind_eq_bind, Option.some_bind, Option.some.injEq] at h
        rw [← h]
  have hpt : ∀ (g : Game) (e : GameEvent) (buf : List ParseResult) (turn : TurnMessage)
      (st : GameState),
      (playTurn g e buf turn st).1.direction = g.direction
        ∨ (playTurn g e buf turn st).1.direction = (handle_input g buf).direction := by
    intro g e buf turn st
    cases e with
    | NewTurn =>
        rw [playTurn]
        by_cases hk : (handle_input g buf).killed = true
        · rw [if_pos hk]
          exact Or.inr rfl
        · rw [if_neg hk]
          split_ifs
          · exact Or.inr rfl
          · exact Or.inr rfl
    | WaitInLobby => exact Or.inl rfl
    | Start => exact Or.inl rfl
  refine ⟨rfl, hhi, hsc, ?_, ?_⟩
  · intro g e buf turn st hdir
    rcases hpt g e buf turn st with hcase | hcase
    · rw [hcase]; exact hdir
    · rw [hcase]; exact hhi g buf hdir
  · intro g' cfg buf turn st hcfg hq
    have hgeq : handle_input g' buf = g' := handle_input_of_not_dir g' buf hq
    have hkill : (handle_input g' buf).killed = false := by
      rw [hgeq, hsck Game.empty g' cfg hcfg]
      rfl
    rw [playTurn_filter_sendDir g' buf turn st hkill, hgeq,
      hsc Game.empty g' cfg hcfg]
    rfl

/-- Witness for C10: a configured fresh session with empty input transmits
Right on its first turn. -/
theorem C10_witness :
    (playTurn
        { id := 0, snakes := [[{ x := 2, y := 2 }]], direction := Direction.Right,
          food := { x := 3, y := 3 }, field := (init_field 5 5).getD [], killed := false }
        GameEvent.NewTurn [] { id := 0, food := { x := 3, y := 3 }, snakes := [[{ x := 2, y := 3 }]] }
        GameState.Playing).2.1.filter TurnStep.isSendDir
      = [TurnStep.sendDirection Direction.Right] :=
  C10_direction_default.2.2.2.2
    { id := 0, snakes := [[{ x := 2, y := 2 }]], direction := Direction.Right,
      food := { x := 3, y := 3 }, field := (init_field 5 5).getD [], killed := false }
    { id := 0, width := 5, height := 5, snakes := [[{ x := 2, y := 2 }]],
      food := { x := 3, y := 3 } }
    [] { id := 0, food := { x := 3, y := 3 }, snakes := [[{ x := 2, y := 3 }]] }
    GameState.Playing (by decide)
    (by intro e h; simp [get_last_key_event] at h)

end Snake
